import Mathlib

/-!
Verification development for the witchbolt stream replication module.

The definitions below are shallow embeddings of the Go source in the
stream package: the CBOR artifact codec (marshalSegment, marshalSnapshot,
decodeSegmentFile, decodeSnapshotFile, populateSegmentPages over the
fxamacker cbor wire format with canonical encoding options), segment
formation (Controller.buildSegment with the crc64 ISO checksum), shadow
log writes, restore enumeration (loadSegmentsFromDir, localRestoreState),
the retention prune algorithms of the file, S3 compatible, SFTP and
JetStream replicas, the per replica manifest read-modify-write, the
generation decision of Controller.persistSegment and
Controller.DataLossWindow.

Machine integers are modelled as Nat (Go uint64, with explicit bounds
where the wire format needs them) and Int (Go int).  Go time.Time values
are modelled as nanoseconds since the Unix epoch (a Nat); the cbor
encoder of the source uses the default TimeUnix mode, which stores whole
epoch seconds.  Strings appearing inside cbor documents are modelled as
their byte lists; all strings of the source that reach the wire are
ASCII.  The zstd codec is an external library and is modelled as a
parameter (a compression function and a partial inverse).
-/

namespace Witchbolt

/-- Byte strings are lists of byte values (each below 256 by construction
of the encoders). -/
abbrev Bytes := List Nat

/-- ASCII byte list of a Lean string, used for cbor text items and keys. -/
def str (s : String) : Bytes := s.data.map Char.toNat

/-- Bitwise exclusive or on the low k bits, by structural recursion on
k (Nat.xor itself is compiled by well founded recursion, which the
kernel cannot evaluate; this version agrees with it on arguments below
2 to the k). -/
def xorBits : Nat → Nat → Nat → Nat
  | 0, _, _ => 0
  | k + 1, a, b =>
    (if (a + b) % 2 = 1 then 1 else 0) + 2 * xorBits k (a / 2) (b / 2)

/-- Exclusive or of two 64 bit values. -/
def xor64 (a b : Nat) : Nat := xorBits 64 a b

/-- One step of the reflected crc64 update, processing a single bit. -/
def crc64Bit (crc : Nat) : Nat :=
  if crc % 2 = 1 then xor64 (crc / 2) 0xD800000000000000 else crc / 2

/-- Process one input byte of the crc64 ISO checksum, as hash/crc64 does
with its ISO table. -/
def crc64Byte (crc b : Nat) : Nat :=
  crc64Bit (crc64Bit (crc64Bit (crc64Bit (crc64Bit (crc64Bit (crc64Bit (crc64Bit (xor64 crc (b % 256)))))))))

/-- Models hash/crc64 Checksum with the ISO polynomial: pre and post
inverted, reflected, table driven update. -/
def crc64 (data : Bytes) : Nat :=
  xor64 (data.foldl crc64Byte 0xFFFFFFFFFFFFFFFF) 0xFFFFFFFFFFFFFFFF

/-- Flip a single bit (bit index k, little endian within byte k / 8) of a
byte string.  Out of range indices leave the string unchanged except for
List.set semantics, which ignore indices past the end. -/
def flipBit (bs : Bytes) (k : Nat) : Bytes :=
  bs.set (k / 8) ((bs.getD (k / 8) 0) ^^^ (2 ^ (k % 8)))

/-! ## CBOR data items

The artifacts travel as cbor documents produced by fxamacker cbor with
CanonicalEncOptions and decoded with a lenient DecMode.  The subset of
cbor reachable from the source types: unsigned integers, negative
integers, byte strings, text strings, arrays, maps and null. -/

/-- A cbor data item. -/
inductive Val where
  | uint : Nat → Val
  | nint : Nat → Val
  | bytes : Bytes → Val
  | text : Bytes → Val
  | arr : List Val → Val
  | vmap : List (Val × Val) → Val
  | nullV : Val
deriving Repr

/-- Shortest form cbor head for major type mt (0..7) and argument n,
as the canonical encoder emits. -/
def encArg (mt n : Nat) : Bytes :=
  if n < 24 then [mt * 32 + n]
  else if n < 256 then [mt * 32 + 24, n]
  else if n < 65536 then [mt * 32 + 25, n / 256, n % 256]
  else if n < 4294967296 then
    [mt * 32 + 26, n / 16777216 % 256, n / 65536 % 256, n / 256 % 256, n % 256]
  else
    [mt * 32 + 27, n / 72057594037927936 % 256, n / 281474976710656 % 256,
      n / 1099511627776 % 256, n / 4294967296 % 256, n / 16777216 % 256,
      n / 65536 % 256, n / 256 % 256, n % 256]

mutual

/-- Canonical cbor encoding of a data item. -/
def encVal : Val → Bytes
  | .uint n => encArg 0 n
  | .nint n => encArg 1 n
  | .bytes b => encArg 2 b.length ++ b
  | .text t => encArg 3 t.length ++ t
  | .arr vs => encArg 4 vs.length ++ encList vs
  | .vmap es => encArg 5 es.length ++ encPairs es
  | .nullV => [0xF6]

/-- Concatenated encodings of a list of items. -/
def encList : List Val → Bytes
  | [] => []
  | v :: vs => encVal v ++ encList vs

/-- Concatenated encodings of key value pairs of a map. -/
def encPairs : List (Val × Val) → Bytes
  | [] => []
  | (k, v) :: es => encVal k ++ encVal v ++ encPairs es

end

/-- Read the argument of a cbor head with additional information ai from
the byte stream.  Additional information values 28 to 31 are refused
(well formed definite length documents never use them). -/
def parseArgN (ai : Nat) (bs : Bytes) : Option (Nat × Bytes) :=
  if ai < 24 then some (ai, bs)
  else if ai = 24 then
    match bs with
    | b0 :: r => some (b0, r)
    | [] => none
  else if ai = 25 then
    match bs with
    | b0 :: b1 :: r => some (b0 * 256 + b1, r)
    | _ => none
  else if ai = 26 then
    match bs with
    | b0 :: b1 :: b2 :: b3 :: r =>
      some (b0 * 16777216 + b1 * 65536 + b2 * 256 + b3, r)
    | _ => none
  else if ai = 27 then
    match bs with
    | b0 :: b1 :: b2 :: b3 :: b4 :: b5 :: b6 :: b7 :: r =>
      some (b0 * 72057594037927936 + b1 * 281474976710656 + b2 * 1099511627776 +
        b3 * 4294967296 + b4 * 16777216 + b5 * 65536 + b6 * 256 + b7, r)
    | _ => none
  else none

/-- Split off exactly n bytes, failing on truncated input. -/
def takeExact (n : Nat) (bs : Bytes) : Option (Bytes × Bytes) :=
  if n ≤ bs.length then some (bs.take n, bs.drop n) else none

/-- Group an alternating key value item list back into pairs (the wire
format of a cbor map is its 2m entry items in sequence). -/
def pairUp : List Val → List (Val × Val)
  | k :: v :: t => (k, v) :: pairUp t
  | _ => []

/-- Fuel bounded cbor parser reading exactly n consecutive data items.
The fuel decreases on every recursive call (into a nested container and
onto the rest of the sequence alike), so the definition is structural
and the kernel can evaluate it; every call consumes at least one byte
first, so fuel of input length plus one always suffices.  A cbor map of
m pairs is read as its 2m constituent items and regrouped. -/
def parseItems : Nat → Nat → Bytes → Option (List Val × Bytes)
  | 0, _, _ => none
  | _ + 1, 0, bs => some ([], bs)
  | f + 1, n + 1, bs =>
    match bs with
    | [] => none
    | b :: bs =>
      match b / 32 with
      | 0 => (parseArgN (b % 32) bs).bind fun p =>
          (parseItems f n p.2).map fun q => (Val.uint p.1 :: q.1, q.2)
      | 1 => (parseArgN (b % 32) bs).bind fun p =>
          (parseItems f n p.2).map fun q => (Val.nint p.1 :: q.1, q.2)
      | 2 => (parseArgN (b % 32) bs).bind fun p =>
          (takeExact p.1 p.2).bind fun w =>
          (parseItems f n w.2).map fun q => (Val.bytes w.1 :: q.1, q.2)
      | 3 => (parseArgN (b % 32) bs).bind fun p =>
          (takeExact p.1 p.2).bind fun w =>
          (parseItems f n w.2).map fun q => (Val.text w.1 :: q.1, q.2)
      | 4 => (parseArgN (b % 32) bs).bind fun p =>
          (parseItems f p.1 p.2).bind fun w =>
          (parseItems f n w.2).map fun q => (Val.arr w.1 :: q.1, q.2)
      | 5 => (parseArgN (b % 32) bs).bind fun p =>
          (parseItems f (2 * p.1) p.2).bind fun w =>
          (parseItems f n w.2).map fun q => (Val.vmap (pairUp w.1) :: q.1, q.2)
      | 7 =>
        if b % 32 = 22 then
          (parseItems f n bs).map fun q => (Val.nullV :: q.1, q.2)
        else none
      | _ => none

/-- Parse a whole cbor document: the single item must consume the entire
input, as cbor.Unmarshal requires (extraneous data is an error). -/
def parseDoc (bs : Bytes) : Option Val :=
  match parseItems (bs.length + 1) 1 bs with
  | some ([v], []) => some v
  | _ => none

/-! ## Parse of encode roundtrip -/

theorem encArg_head (mt n : Nat) (_hmt : mt < 8) (hn : n < 18446744073709551616) :
    ∃ b tail, encArg mt n = b :: tail ∧ b / 32 = mt ∧
      ∀ r, parseArgN (b % 32) (tail ++ r) = some (n, r) := by
  unfold encArg
  split_ifs with h1 h2 h3 h4
  · refine ⟨mt * 32 + n, [], rfl, by omega, fun r => ?_⟩
    rw [show (mt * 32 + n) % 32 = n by omega]
    simp [parseArgN, h1]
  · refine ⟨mt * 32 + 24, [n], rfl, by omega, fun r => ?_⟩
    rw [show (mt * 32 + 24) % 32 = 24 by omega]
    simp [parseArgN]
  · refine ⟨mt * 32 + 25, [n / 256, n % 256], rfl, by omega, fun r => ?_⟩
    rw [show (mt * 32 + 25) % 32 = 25 by omega]
    simp [parseArgN]
    omega
  · refine ⟨mt * 32 + 26,
      [n / 16777216 % 256, n / 65536 % 256, n / 256 % 256, n % 256], rfl,
      by omega, fun r => ?_⟩
    rw [show (mt * 32 + 26) % 32 = 26 by omega]
    simp [parseArgN]
    omega
  · refine ⟨mt * 32 + 27,
      [n / 72057594037927936 % 256, n / 281474976710656 % 256,
        n / 1099511627776 % 256, n / 4294967296 % 256, n / 16777216 % 256,
        n / 65536 % 256, n / 256 % 256, n % 256], rfl, by omega, fun r => ?_⟩
    rw [show (mt * 32 + 27) % 32 = 27 by omega]
    simp [parseArgN]
    omega

theorem takeExact_append (l r : Bytes) :
    takeExact l.length (l ++ r) = some (l, r) := by
  unfold takeExact
  rw [if_pos (by simp)]
  simp

/-- Sixty four bit bound on every integer argument of the encoding. -/
def wfArg (n : Nat) : Bool := decide (n < 18446744073709551616)

mutual

/-- Well formedness of a cbor item for the wire roundtrip: every
argument fits the 64 bit head. -/
def wfVal : Val → Bool
  | .uint n => wfArg n
  | .nint n => wfArg n
  | .bytes b => wfArg b.length
  | .text t => wfArg t.length
  | .arr vs => wfArg vs.length && wfList vs
  | .vmap es => wfArg es.length && wfPairs es
  | .nullV => true

/-- Well formedness of an item list. -/
def wfList : List Val → Bool
  | [] => true
  | v :: t => wfVal v && wfList t

/-- Well formedness of a pair list. -/
def wfPairs : List (Val × Val) → Bool
  | [] => true
  | (k, v) :: t => wfVal k && (wfVal v && wfPairs t)

end

/-- The item sequence of a map body: keys and values alternating. -/
def flattenPairs : List (Val × Val) → List Val
  | [] => []
  | (k, v) :: t => k :: v :: flattenPairs t

theorem encPairs_eq_flatten (es : List (Val × Val)) :
    encPairs es = encList (flattenPairs es) := by
  induction es with
  | nil => rfl
  | cons e t ih => cases e; simp [encPairs, flattenPairs, encList, ih]

theorem flattenPairs_length (es : List (Val × Val)) :
    (flattenPairs es).length = 2 * es.length := by
  induction es with
  | nil => rfl
  | cons e t ih => cases e; simp [flattenPairs, ih]; omega

theorem pairUp_flattenPairs (es : List (Val × Val)) :
    pairUp (flattenPairs es) = es := by
  induction es with
  | nil => rfl
  | cons e t ih => cases e; simp [flattenPairs, pairUp, ih]

theorem wfList_flattenPairs {es : List (Val × Val)}
    (h : wfPairs es = true) : wfList (flattenPairs es) = true := by
  induction es with
  | nil => rfl
  | cons e t ih =>
    cases e
    simp only [wfPairs, Bool.and_eq_true] at h
    simp [flattenPairs, wfList, h.1, h.2.1, ih h.2.2]

theorem encArg_length_pos (mt n : Nat) : 1 ≤ (encArg mt n).length := by
  unfold encArg; split_ifs <;> simp

theorem encVal_length_pos (v : Val) : 1 ≤ (encVal v).length := by
  cases v <;> simp [encVal] <;>
    first
      | exact encArg_length_pos _ _
      | exact le_trans (encArg_length_pos _ _) (Nat.le_add_right _ _)

set_option maxHeartbeats 1000000 in
/-- Parsing the concatenated encodings of a well formed item list with
enough fuel returns the list and the remainder. -/
theorem parseItems_encList :
    ∀ (f : Nat) (vs : List Val) (rest : Bytes), wfList vs = true →
      (encList vs).length < f →
      parseItems f vs.length (encList vs ++ rest) = some (vs, rest) := by
  intro f
  induction f with
  | zero => intro vs rest _ hlen; omega
  | succ f ih =>
    intro vs rest hwf hlen
    cases vs with
    | nil => simp [encList, parseItems]
    | cons v t =>
      simp only [wfList, Bool.and_eq_true] at hwf
      obtain ⟨hv, ht⟩ := hwf
      have hlenv := encVal_length_pos v
      have hsplit : encList (v :: t) ++ rest = encVal v ++ (encList t ++ rest) := by
        simp [encList]
      have hlen2 : (encList (v :: t)).length = (encVal v).length + (encList t).length := by
        simp [encList]
      have htail : parseItems f t.length (encList t ++ rest) = some (t, rest) :=
        ih t rest ht (by omega)
      rw [hsplit]
      cases v with
      | uint n =>
        obtain ⟨b, tail, henc, hdiv, hparse⟩ :=
          encArg_head 0 n (by omega) (by simpa [wfVal, wfArg] using hv)
        have : encVal (Val.uint n) ++ (encList t ++ rest) =
            b :: (tail ++ (encList t ++ rest)) := by simp [encVal, henc]
        rw [this]
        simp [parseItems, hdiv, hparse, htail]
      | nint n =>
        obtain ⟨b, tail, henc, hdiv, hparse⟩ :=
          encArg_head 1 n (by omega) (by simpa [wfVal, wfArg] using hv)
        have : encVal (Val.nint n) ++ (encList t ++ rest) =
            b :: (tail ++ (encList t ++ rest)) := by simp [encVal, henc]
        rw [this]
        simp [parseItems, hdiv, hparse, htail]
      | bytes d =>
        obtain ⟨b, tail, henc, hdiv, hparse⟩ :=
          encArg_head 2 d.length (by omega) (by simpa [wfVal, wfArg] using hv)
        have : encVal (Val.bytes d) ++ (encList t ++ rest) =
            b :: (tail ++ (d ++ (encList t ++ rest))) := by simp [encVal, henc]
        rw [this]
        simp [parseItems, hdiv, hparse, takeExact_append, htail]
      | text d =>
        obtain ⟨b, tail, henc, hdiv, hparse⟩ :=
          encArg_head 3 d.length (by omega) (by simpa [wfVal, wfArg] using hv)
        have : encVal (Val.text d) ++ (encList t ++ rest) =
            b :: (tail ++ (d ++ (encList t ++ rest))) := by simp [encVal, henc]
        rw [this]
        simp [parseItems, hdiv, hparse, takeExact_append, htail]
      | arr vs2 =>
        simp only [wfVal, Bool.and_eq_true] at hv
        obtain ⟨hvlen, hvs2⟩ := hv
        obtain ⟨b, tail, henc, hdiv, hparse⟩ :=
          encArg_head 4 vs2.length (by omega) (by simpa [wfArg] using hvlen)
        have : encVal (Val.arr vs2) ++ (encList t ++ rest) =
            b :: (tail ++ (encList vs2 ++ (encList t ++ rest))) := by
          simp [encVal, henc]
        rw [this]
        have hlv : (encVal (Val.arr vs2)).length =
            (encArg 4 vs2.length).length + (encList vs2).length := by
          simp [encVal]
        have hap := encArg_length_pos 4 vs2.length
        have hnested : parseItems f vs2.length (encList vs2 ++ (encList t ++ rest)) =
            some (vs2, encList t ++ rest) :=
          ih vs2 (encList t ++ rest) hvs2 (by omega)
        simp [parseItems, hdiv, hparse, hnested, htail]
      | vmap es =>
        simp only [wfVal, Bool.and_eq_true] at hv
        obtain ⟨hvlen, hes⟩ := hv
        obtain ⟨b, tail, henc, hdiv, hparse⟩ :=
          encArg_head 5 es.length (by omega) (by simpa [wfArg] using hvlen)
        have : encVal (Val.vmap es) ++ (encList t ++ rest) =
            b :: (tail ++ (encList (flattenPairs es) ++ (encList t ++ rest))) := by
          simp [encVal, henc, encPairs_eq_flatten]
        rw [this]
        have hlv : (encVal (Val.vmap es)).length =
            (encArg 5 es.length).length + (encList (flattenPairs es)).length := by
          simp [encVal, encPairs_eq_flatten]
        have hap := encArg_length_pos 5 es.length
        have hnested : parseItems f (flattenPairs es).length
            (encList (flattenPairs es) ++ (encList t ++ rest)) =
            some (flattenPairs es, encList t ++ rest) :=
          ih (flattenPairs es) (encList t ++ rest) (wfList_flattenPairs hes)
            (by omega)
        rw [flattenPairs_length] at hnested
        simp [parseItems, hdiv, hparse, hnested, htail, pairUp_flattenPairs]
      | nullV =>
        have : encVal Val.nullV ++ (encList t ++ rest) =
            246 :: (encList t ++ rest) := by simp [encVal]
        rw [this]
        simp [parseItems, htail]

/-- Parsing the document produced by encoding a well formed item
returns the item. -/
theorem parseDoc_enc (v : Val) (hwf : wfVal v = true) :
    parseDoc (encVal v) = some v := by
  unfold parseDoc
  have h := parseItems_encList ((encVal v).length + 1) [v] []
    (by simp [wfList, hwf]) (by simp [encList])
  simp only [encList, List.append_nil, List.length_cons, List.length_nil] at h
  norm_num at h
  rw [h]

/-! ## Artifact data model

Shallow embedding of the stream structs.  Go strings reaching the wire
are modelled as ASCII byte lists, Go time.Time as nanoseconds since the
Unix epoch, Go int as Int, Go uint64 and uint32 as Nat. -/

/-- SegmentHeader of the source (segment.go). -/
structure SegmentHeader where
  magic : Bytes
  version : Int
  txId : Nat
  parentTxId : Nat
  pageCount : Int
  pageSize : Int
  checksum : Nat
  compression : Bytes
  compressionLevel : Int
  compressionWindow : Int
  createdAt : Nat
  highWaterMark : Nat
  additionalAttrs : List (Bytes × Bytes)
deriving DecidableEq, Repr

/-- PageFrame of the source. -/
structure PageFrame where
  id : Nat
  overflow : Nat
  data : Bytes
deriving DecidableEq, Repr

/-- Segment of the source: header, decoded frames, compressed payload. -/
structure Segment where
  header : SegmentHeader
  pages : List PageFrame
  data : Bytes
deriving DecidableEq, Repr

/-- SnapshotHeader of the source. -/
structure SnapshotHeader where
  magic : Bytes
  version : Int
  txId : Nat
  pageCount : Nat
  pageSize : Int
  compression : Bytes
  compressionLevel : Int
  compressionWindow : Int
  createdAt : Nat
deriving DecidableEq, Repr

/-- Snapshot of the source: header plus compressed image. -/
structure Snapshot where
  header : SnapshotHeader
  data : Bytes
deriving DecidableEq, Repr

/-- The segment and snapshot magic bytes, "BTLS". -/
def segmentMagic : Bytes := str "BTLS"

/-- Wire version of the artifact format. -/
def segmentVersion : Int := 1

/-! ## Compression codec

compressBuffer and decompressBuffer of compress.go.  The zstd
implementation is the external klauspost library; it is modelled as a
parameter: a total compression function together with a partial
decompression function. -/

/-- External zstd implementation model. -/
structure CodecImpl where
  comp : Bytes → Bytes
  decomp : Bytes → Option Bytes
deriving Inhabited

/-- The library contract of a lossless codec. -/
def CodecImpl.Lossless (z : CodecImpl) : Prop :=
  ∀ b, z.decomp (z.comp b) = some b

/-- Identity instance of the codec parameter, used to witness theorems. -/
def idCodec : CodecImpl := ⟨fun b => b, fun b => some b⟩

theorem idCodec_lossless : idCodec.Lossless := fun _ => rfl

/-- compressBuffer of compress.go (codec dispatch; unknown codec errors). -/
def compressBuffer (z : CodecImpl) (codec : Bytes) (payload : Bytes) : Option Bytes :=
  if codec = str "none" then some payload
  else if codec = str "zstd" then some (z.comp payload)
  else none

/-- decompressBuffer of compress.go. -/
def decompressBuffer (z : CodecImpl) (codec : Bytes) (payload : Bytes) : Option Bytes :=
  if codec = str "none" then some payload
  else if codec = str "zstd" then z.decomp payload
  else none

/-! ## Struct to cbor conversion

fxamacker cbor with CanonicalEncOptions encodes a struct as a definite
length map whose text keys are the cbor struct tags, sorted canonically
(shorter encoded key first, then bytewise).  Fields tagged omitempty are
dropped at their zero value.  time.Time fields use the default TimeUnix
mode: the whole number of epoch seconds as an integer. -/

/-- Go int encoding: nonnegative values as major 0, negatives as major 1. -/
def intToVal (i : Int) : Val :=
  if 0 ≤ i then .uint i.toNat else .nint (-(i + 1)).toNat

/-- TimeUnix encoding of a (nonnegative) timestamp: whole epoch seconds. -/
def timeToVal (t : Nat) : Val := .uint (t / 1000000000)

/-- Canonical key order on encoded text keys: length first, bytewise
second, as CanonicalEncOptions sorts map keys. -/
def keyLE (a b : Bytes) : Prop :=
  a.length < b.length ∨ (a.length = b.length ∧ ¬ b < a)

instance : DecidableRel keyLE := fun a b => by
  unfold keyLE; infer_instance

/-- Canonical ordering of the attribute map entries (Go map keys are
unique; the encoder emits them canonically sorted). -/
def canonAttrs (a : List (Bytes × Bytes)) : List (Bytes × Bytes) :=
  a.insertionSort fun p q => keyLE p.1 q.1

/-- Attribute map as a cbor item. -/
def attrsToVal (a : List (Bytes × Bytes)) : Val :=
  .vmap ((canonAttrs a).map fun p => (.text p.1, .text p.2))

/-- SegmentHeader as its canonical cbor map.  Key order: txId, magic,
version, checksum, pageSize, createdAt, pageCount, parentTxId,
compression, highWaterMark, additionalAttrs, compressionLevel,
compressionWindow (canonical: length first, then bytewise); the last
three carry omitempty. -/
def segHdrToVal (h : SegmentHeader) : Val :=
  .vmap (
    [(.text (str "txId"), .uint h.txId),
     (.text (str "magic"), .text h.magic),
     (.text (str "version"), intToVal h.version),
     (.text (str "checksum"), .uint h.checksum),
     (.text (str "pageSize"), intToVal h.pageSize),
     (.text (str "createdAt"), timeToVal h.createdAt),
     (.text (str "pageCount"), intToVal h.pageCount),
     (.text (str "parentTxId"), .uint h.parentTxId),
     (.text (str "compression"), .text h.compression),
     (.text (str "highWaterMark"), .uint h.highWaterMark)]
    ++ (if h.additionalAttrs = [] then []
        else [(.text (str "additionalAttrs"), attrsToVal h.additionalAttrs)])
    ++ (if h.compressionLevel = 0 then []
        else [(.text (str "compressionLevel"), intToVal h.compressionLevel)])
    ++ (if h.compressionWindow = 0 then []
        else [(.text (str "compressionWindow"), intToVal h.compressionWindow)]))

/-- SnapshotHeader as its canonical cbor map. -/
def snapHdrToVal (h : SnapshotHeader) : Val :=
  .vmap (
    [(.text (str "txId"), .uint h.txId),
     (.text (str "magic"), .text h.magic),
     (.text (str "version"), intToVal h.version),
     (.text (str "pageSize"), intToVal h.pageSize),
     (.text (str "createdAt"), timeToVal h.createdAt),
     (.text (str "pageCount"), .uint h.pageCount),
     (.text (str "compression"), .text h.compression)]
    ++ (if h.compressionLevel = 0 then []
        else [(.text (str "compressionLevel"), intToVal h.compressionLevel)])
    ++ (if h.compressionWindow = 0 then []
        else [(.text (str "compressionWindow"), intToVal h.compressionWindow)]))

/-- PageFrame as its cbor map (untagged Go struct: field names as keys). -/
def frameToVal (fr : PageFrame) : Val :=
  .vmap [(.text (str "ID"), .uint fr.id),
         (.text (str "Data"), .bytes fr.data),
         (.text (str "Overflow"), .uint fr.overflow)]

/-- marshalSegment of segment.go: the enclosing container is a map with
keys data and header (canonical order). -/
def marshalSegment (s : Segment) : Bytes :=
  encVal (.vmap [(.text (str "data"), .bytes s.data),
                 (.text (str "header"), segHdrToVal s.header)])

/-- marshalSnapshot of segment.go. -/
def marshalSnapshot (s : Snapshot) : Bytes :=
  encVal (.vmap [(.text (str "data"), .bytes s.data),
                 (.text (str "header"), snapHdrToVal s.header)])

/-- Inner segment payload document of payload.go (buildSegmentPayload
followed by encodeSegmentCBORPayload): a map with keys pages and header. -/
def segPayloadVal (h : SegmentHeader) (pages : List PageFrame) : Val :=
  .vmap [(.text (str "pages"), .arr (pages.map frameToVal)),
         (.text (str "header"), segHdrToVal h)]

/-! ## Struct decoding

cbor.Unmarshal into a Go struct: the document must be a map (or null);
unknown keys are ignored; a missing key leaves the zero value; a present
key of the wrong cbor type is an error. -/

/-- First binding of a text key inside a cbor map. -/
def vmLookup : List (Val × Val) → Bytes → Option Val
  | [], _ => none
  | (Val.text kb, vv) :: t, k => if kb = k then some vv else vmLookup t k
  | _ :: t, k => vmLookup t k

/-- Decode a uint64 or uint32 field (missing key: zero). -/
def decUintF : Option Val → Option Nat
  | none => some 0
  | some (.uint n) => some n
  | some _ => none

/-- Decode a Go int field (missing key: zero). -/
def decIntF : Option Val → Option Int
  | none => some 0
  | some (.uint n) => some n
  | some (.nint n) => some (-1 - (n : Int))
  | some _ => none

/-- Decode a byte slice field (missing key or null: nil). -/
def decBytesF : Option Val → Option Bytes
  | none => some []
  | some (.bytes b) => some b
  | some .nullV => some []
  | some _ => none

/-- Decode a string field (missing key: empty). -/
def decTextF : Option Val → Option Bytes
  | none => some []
  | some (.text t) => some t
  | some _ => none

/-- Decode a time.Time field from the epoch seconds integer (missing
key: the zero time, modelled as 0). -/
def decTimeF : Option Val → Option Nat
  | none => some 0
  | some (.uint s) => some (s * 1000000000)
  | some _ => none

/-- Decode the entries of a string to string map. -/
def decPairsText : List (Val × Val) → Option (List (Bytes × Bytes))
  | [] => some []
  | (Val.text kb, Val.text vb) :: t =>
    (decPairsText t).map fun rest => (kb, vb) :: rest
  | _ :: _ => none

/-- Decode a map of string to string field (missing key or null: nil). -/
def decAttrsF : Option Val → Option (List (Bytes × Bytes))
  | none => some []
  | some (.vmap es) => decPairsText es
  | some .nullV => some []
  | some _ => none

/-- Decode a SegmentHeader from a struct field binding. -/
def decSegHdrF : Option Val → Option SegmentHeader
  | none => some ⟨[], 0, 0, 0, 0, 0, 0, [], 0, 0, 0, 0, []⟩
  | some .nullV => some ⟨[], 0, 0, 0, 0, 0, 0, [], 0, 0, 0, 0, []⟩
  | some (.vmap es) =>
    (decTextF (vmLookup es (str "magic"))).bind fun magic =>
    (decIntF (vmLookup es (str "version"))).bind fun version =>
    (decUintF (vmLookup es (str "txId"))).bind fun txId =>
    (decUintF (vmLookup es (str "parentTxId"))).bind fun parentTxId =>
    (decIntF (vmLookup es (str "pageCount"))).bind fun pageCount =>
    (decIntF (vmLookup es (str "pageSize"))).bind fun pageSize =>
    (decUintF (vmLookup es (str "checksum"))).bind fun checksum =>
    (decTextF (vmLookup es (str "compression"))).bind fun compression =>
    (decIntF (vmLookup es (str "compressionLevel"))).bind fun level =>
    (decIntF (vmLookup es (str "compressionWindow"))).bind fun window =>
    (decTimeF (vmLookup es (str "createdAt"))).bind fun createdAt =>
    (decUintF (vmLookup es (str "highWaterMark"))).bind fun hwm =>
    (decAttrsF (vmLookup es (str "additionalAttrs"))).bind fun attrs =>
    some ⟨magic, version, txId, parentTxId, pageCount, pageSize, checksum,
      compression, level, window, createdAt, hwm, attrs⟩
  | some _ => none

/-- Decode a SnapshotHeader from a struct field binding. -/
def decSnapHdrF : Option Val → Option SnapshotHeader
  | none => some ⟨[], 0, 0, 0, 0, [], 0, 0, 0⟩
  | some .nullV => some ⟨[], 0, 0, 0, 0, [], 0, 0, 0⟩
  | some (.vmap es) =>
    (decTextF (vmLookup es (str "magic"))).bind fun magic =>
    (decIntF (vmLookup es (str "version"))).bind fun version =>
    (decUintF (vmLookup es (str "txId"))).bind fun txId =>
    (decUintF (vmLookup es (str "pageCount"))).bind fun pageCount =>
    (decIntF (vmLookup es (str "pageSize"))).bind fun pageSize =>
    (decTextF (vmLookup es (str "compression"))).bind fun compression =>
    (decIntF (vmLookup es (str "compressionLevel"))).bind fun level =>
    (decIntF (vmLookup es (str "compressionWindow"))).bind fun window =>
    (decTimeF (vmLookup es (str "createdAt"))).bind fun createdAt =>
    some ⟨magic, version, txId, pageCount, pageSize, compression, level,
      window, createdAt⟩
  | some _ => none

/-- Decode one PageFrame element. -/
def frameFromVal : Val → Option PageFrame
  | .vmap es =>
    (decUintF (vmLookup es (str "ID"))).bind fun i =>
    (decUintF (vmLookup es (str "Overflow"))).bind fun ov =>
    (decBytesF (vmLookup es (str "Data"))).bind fun dt =>
    some ⟨i, ov, dt⟩
  | .nullV => some ⟨0, 0, []⟩
  | _ => none

/-- Decode a list of PageFrame elements. -/
def framesFromList : List Val → Option (List PageFrame)
  | [] => some []
  | v :: vs =>
    (frameFromVal v).bind fun fr =>
      (framesFromList vs).map fun rest => fr :: rest

/-- Decode the pages field (missing key or null: nil slice). -/
def decFramesF : Option Val → Option (List PageFrame)
  | none => some []
  | some (.arr vs) => framesFromList vs
  | some .nullV => some []
  | some _ => none

/-- Decode the parsed inner payload document into its pages (the inner
header is decoded and validated as well, its value unused). -/
def decodeSegPayloadVal : Val → Option (List PageFrame)
  | .vmap es =>
    (decSegHdrF (vmLookup es (str "header"))).bind fun _ =>
    decFramesF (vmLookup es (str "pages"))
  | .nullV =>
    (decSegHdrF none).bind fun _ => decFramesF none
  | _ => none

/-- populateSegmentPages of restore.go on the decode path (freshly
decoded segments always have empty Pages, so the early return for
nonempty Pages is not taken): decompress the payload with the codec of
the header, parse the inner document, decode its header and pages
struct fields, return the pages. -/
def populateSegmentPages (z : CodecImpl) (compression : Bytes) (data : Bytes) :
    Option (List PageFrame) :=
  (decompressBuffer z compression data).bind fun raw =>
  (parseDoc raw).bind decodeSegPayloadVal

/-- Decode the parsed segment container document. -/
def decodeSegContainer (z : CodecImpl) : Val → Option Segment
  | .vmap es =>
    (decSegHdrF (vmLookup es (str "header"))).bind fun hdr =>
    (decBytesF (vmLookup es (str "data"))).bind fun d =>
    (populateSegmentPages z hdr.compression d).bind fun pages =>
    some ⟨hdr, pages, d⟩
  | .nullV =>
    (populateSegmentPages z [] []).bind fun pages =>
    some ⟨⟨[], 0, 0, 0, 0, 0, 0, [], 0, 0, 0, 0, []⟩, pages, []⟩
  | _ => none

/-- decodeSegmentFile of restore.go: parse the container, decode header
and payload fields, then populate the frames from the payload.  No
checksum comparison appears anywhere on this path. -/
def decodeSegmentFile (z : CodecImpl) (data : Bytes) : Option Segment :=
  (parseDoc data).bind (decodeSegContainer z)

/-- Decode the parsed snapshot container document. -/
def decodeSnapContainer : Val → Option Snapshot
  | .vmap es =>
    (decSnapHdrF (vmLookup es (str "header"))).bind fun hdr =>
    (decBytesF (vmLookup es (str "data"))).bind fun d =>
    some ⟨hdr, d⟩
  | .nullV => some ⟨⟨[], 0, 0, 0, 0, [], 0, 0, 0⟩, []⟩
  | _ => none

/-- decodeSnapshotFile of restore.go: parse the container and decode the
header and data fields; the payload stays compressed. -/
def decodeSnapshotFile (data : Bytes) : Option Snapshot :=
  (parseDoc data).bind decodeSnapContainer

/-! ## Segment formation -/

/-- PageFlushInfo of pageflush.go restricted to the fields the stream
controller reads. -/
structure PageFlushInfo where
  txID : Nat
  parentTxID : Nat
  pageSize : Int
  highWaterMark : Nat
  timestamp : Nat
  frames : List PageFrame
deriving DecidableEq, Repr

/-- Controller.buildSegment: copy the frames, fill the header with the
configured compression settings, encode and compress the inner payload,
then store the crc64 ISO checksum of the compressed payload in the
header.  The now argument stands for time.Now, used when the flush
carries a zero timestamp. -/
def buildSegment (z : CodecImpl) (codec : Bytes) (level window : Int)
    (now : Nat) (info : PageFlushInfo) : Option Segment :=
  let createdAt := if info.timestamp = 0 then now else info.timestamp
  let header : SegmentHeader :=
    ⟨segmentMagic, segmentVersion, info.txID, info.parentTxID,
      info.frames.length, info.pageSize, 0, codec, level, window,
      createdAt, info.highWaterMark, []⟩
  let raw := encVal (segPayloadVal header info.frames)
  (compressBuffer z codec raw).map fun compressed =>
    ⟨{ header with checksum := crc64 compressed }, info.frames, compressed⟩

/-- Byte lists of the cbor keys, precomputed for cheap lookups. -/
theorem strKey_txId : str "txId" = [116, 120, 73, 100] := rfl

theorem strKey_magic : str "magic" = [109, 97, 103, 105, 99] := rfl

theorem strKey_version : str "version" = [118, 101, 114, 115, 105, 111, 110] := rfl

theorem strKey_checksum : str "checksum" = [99, 104, 101, 99, 107, 115, 117, 109] := rfl

theorem strKey_pageSize : str "pageSize" = [112, 97, 103, 101, 83, 105, 122, 101] := rfl

theorem strKey_createdAt : str "createdAt" = [99, 114, 101, 97, 116, 101, 100, 65, 116] := rfl

theorem strKey_pageCount : str "pageCount" = [112, 97, 103, 101, 67, 111, 117, 110, 116] := rfl

theorem strKey_parentTxId : str "parentTxId" = [112, 97, 114, 101, 110, 116, 84, 120, 73, 100] := rfl

theorem strKey_compression : str "compression" = [99, 111, 109, 112, 114, 101, 115, 115, 105, 111, 110] := rfl

theorem strKey_highWaterMark : str "highWaterMark" = [104, 105, 103, 104, 87, 97, 116, 101, 114, 77, 97, 114, 107] := rfl

theorem strKey_additionalAttrs : str "additionalAttrs" = [97, 100, 100, 105, 116, 105, 111, 110, 97, 108, 65, 116, 116, 114, 115] := rfl

theorem strKey_compressionLevel : str "compressionLevel" = [99, 111, 109, 112, 114, 101, 115, 115, 105, 111, 110, 76, 101, 118, 101, 108] := rfl

theorem strKey_compressionWindow : str "compressionWindow" = [99, 111, 109, 112, 114, 101, 115, 115, 105, 111, 110, 87, 105, 110, 100, 111, 119] := rfl

theorem strKey_ID : str "ID" = [73, 68] := rfl

theorem strKey_Data : str "Data" = [68, 97, 116, 97] := rfl

theorem strKey_Overflow : str "Overflow" = [79, 118, 101, 114, 102, 108, 111, 119] := rfl

theorem strKey_pages : str "pages" = [112, 97, 103, 101, 115] := rfl

theorem strKey_header : str "header" = [104, 101, 97, 100, 101, 114] := rfl

theorem strKey_data : str "data" = [100, 97, 116, 97] := rfl


/-! ## Roundtrip of the struct codecs

The cbor roundtrip is the identity on headers except that TimeUnix
truncates the creation timestamp to whole seconds and the attribute map
comes back in canonical key order. -/

/-- Header normalization performed by an encode and decode roundtrip. -/
def normSegHdr (h : SegmentHeader) : SegmentHeader :=
  { h with createdAt := h.createdAt / 1000000000 * 1000000000,
           additionalAttrs := canonAttrs h.additionalAttrs }

/-- Snapshot header normalization performed by a roundtrip. -/
def normSnapHdr (h : SnapshotHeader) : SnapshotHeader :=
  { h with createdAt := h.createdAt / 1000000000 * 1000000000 }

theorem decIntF_intToVal (i : Int) : decIntF (some (intToVal i)) = some i := by
  unfold intToVal
  split_ifs with h
  · simp [decIntF]; omega
  · simp [decIntF]; omega

theorem decIntF_none : decIntF none = some 0 := rfl
theorem decUintF_some (n : Nat) : decUintF (some (.uint n)) = some n := rfl
theorem decTextF_some (t : Bytes) : decTextF (some (.text t)) = some t := rfl
theorem decBytesF_some (b : Bytes) : decBytesF (some (.bytes b)) = some b := rfl
theorem decTimeF_some (s : Nat) :
    decTimeF (some (.uint s)) = some (s * 1000000000) := rfl
theorem decAttrsF_none : decAttrsF none = some [] := rfl

theorem decPairsText_map (l : List (Bytes × Bytes)) :
    decPairsText (l.map fun p => (Val.text p.1, Val.text p.2)) = some l := by
  induction l with
  | nil => simp [decPairsText]
  | cons p t ih => cases p; simp [decPairsText, ih]

theorem decAttrsF_attrsToVal (a : List (Bytes × Bytes)) :
    decAttrsF (some (attrsToVal a)) = some (canonAttrs a) := by
  simp [decAttrsF, attrsToVal, decPairsText_map]

set_option maxHeartbeats 2000000 in
theorem decSegHdrF_enc (h : SegmentHeader) :
    decSegHdrF (some (segHdrToVal h)) = some (normSegHdr h) := by
  by_cases ha : h.additionalAttrs = [] <;>
  by_cases hl : h.compressionLevel = 0 <;>
  by_cases hw : h.compressionWindow = 0 <;>
  · simp only [decSegHdrF, segHdrToVal, ha, hl, hw, List.append_nil,
      List.cons_append, List.nil_append, ite_true, ite_false,
      eq_self_iff_true, not_true, not_false_iff, if_true, if_false]
    simp +decide only [vmLookup, strKey_txId, strKey_magic, strKey_version,
      strKey_checksum, strKey_pageSize, strKey_createdAt, strKey_pageCount,
      strKey_parentTxId, strKey_compression, strKey_highWaterMark,
      strKey_additionalAttrs, strKey_compressionLevel, strKey_compressionWindow]
    simp [decIntF_intToVal, decIntF_none, decUintF_some, decTextF_some,
      decTimeF_some, decAttrsF_attrsToVal, decAttrsF_none, timeToVal,
      normSegHdr, ha, hl, hw, canonAttrs, List.insertionSort]

set_option maxHeartbeats 1000000 in
theorem decSnapHdrF_enc (h : SnapshotHeader) :
    decSnapHdrF (some (snapHdrToVal h)) = some (normSnapHdr h) := by
  by_cases hl : h.compressionLevel = 0 <;>
  by_cases hw : h.compressionWindow = 0 <;>
  · simp only [decSnapHdrF, snapHdrToVal, hl, hw, List.append_nil,
      List.cons_append, List.nil_append, ite_true, ite_false,
      eq_self_iff_true, not_true, not_false_iff, if_true, if_false]
    simp +decide only [vmLookup, strKey_txId, strKey_magic, strKey_version,
      strKey_pageSize, strKey_createdAt, strKey_pageCount,
      strKey_compression, strKey_compressionLevel, strKey_compressionWindow]
    simp [decIntF_intToVal, decIntF_none, decUintF_some, decTextF_some,
      decTimeF_some, timeToVal, normSnapHdr, hl, hw]

theorem frameFromVal_enc (fr : PageFrame) :
    frameFromVal (frameToVal fr) = some fr := by
  simp only [frameFromVal, frameToVal]
  simp +decide only [vmLookup, strKey_ID, strKey_Data, strKey_Overflow]
  simp [decUintF_some, decBytesF_some]

theorem framesFromList_enc (l : List PageFrame) :
    framesFromList (l.map frameToVal) = some l := by
  induction l with
  | nil => simp [framesFromList]
  | cons fr t ih => simp [framesFromList, frameFromVal_enc, ih]

/-! ## Well formedness bounds

The wire format stores 64 bit integers; the Go values always satisfy
these bounds (uint64 and int fields, slice lengths). -/

/-- Bound of a Go uint64. -/
def W64 (n : Nat) : Prop := n < 18446744073709551616

instance (n : Nat) : Decidable (W64 n) := by unfold W64; infer_instance

/-- Bound of a Go int on a 64 bit platform (sign extended view). -/
def IntW (i : Int) : Prop :=
  -18446744073709551616 ≤ i ∧ i < 18446744073709551616

instance (i : Int) : Decidable (IntW i) := by unfold IntW; infer_instance

/-- Wire bounds of a segment header. -/
def SegmentHeader.WF (h : SegmentHeader) : Prop :=
  W64 h.txId ∧ W64 h.parentTxId ∧ W64 h.checksum ∧ W64 h.highWaterMark ∧
  W64 (h.createdAt / 1000000000) ∧ IntW h.version ∧ IntW h.pageCount ∧
  IntW h.pageSize ∧ IntW h.compressionLevel ∧ IntW h.compressionWindow ∧
  W64 h.magic.length ∧ W64 h.compression.length ∧
  W64 h.additionalAttrs.length ∧
  ∀ p ∈ h.additionalAttrs, W64 p.1.length ∧ W64 p.2.length

instance (h : SegmentHeader) : Decidable h.WF := by
  unfold SegmentHeader.WF; infer_instance

/-- Wire bounds of a snapshot header. -/
def SnapshotHeader.WF (h : SnapshotHeader) : Prop :=
  W64 h.txId ∧ W64 h.pageCount ∧ W64 (h.createdAt / 1000000000) ∧
  IntW h.version ∧ IntW h.pageSize ∧ IntW h.compressionLevel ∧
  IntW h.compressionWindow ∧ W64 h.magic.length ∧ W64 h.compression.length

instance (h : SnapshotHeader) : Decidable h.WF := by
  unfold SnapshotHeader.WF; infer_instance

/-- Wire bounds of a page frame. -/
def PageFrame.WF (fr : PageFrame) : Prop :=
  W64 fr.id ∧ W64 fr.overflow ∧ W64 fr.data.length

instance (fr : PageFrame) : Decidable fr.WF := by
  unfold PageFrame.WF; infer_instance

theorem wfVal_intToVal {i : Int} (hi : IntW i) : wfVal (intToVal i) = true := by
  obtain ⟨hlo, hhi⟩ := hi
  unfold intToVal
  split_ifs with h
  · simp only [wfVal, wfArg, decide_eq_true_eq]
    omega
  · simp only [wfVal, wfArg, decide_eq_true_eq]
    omega

theorem wfVal_uint {n : Nat} (h : W64 n) : wfVal (Val.uint n) = true := by
  simp only [wfVal, wfArg, decide_eq_true_eq]
  exact h

theorem wfVal_text {t : Bytes} (h : W64 t.length) : wfVal (Val.text t) = true := by
  simp only [wfVal, wfArg, decide_eq_true_eq]
  exact h

theorem wfVal_bytes {t : Bytes} (h : W64 t.length) : wfVal (Val.bytes t) = true := by
  simp only [wfVal, wfArg, decide_eq_true_eq]
  exact h

theorem wfVal_timeToVal (t : Nat) (h : W64 (t / 1000000000)) :
    wfVal (timeToVal t) = true := by
  simp only [timeToVal, wfVal, wfArg, decide_eq_true_eq]
  exact h

theorem wfPairs_append (l1 l2 : List (Val × Val)) :
    wfPairs (l1 ++ l2) = (wfPairs l1 && wfPairs l2) := by
  induction l1 with
  | nil => simp [wfPairs]
  | cons e t ih => cases e; simp [wfPairs, ih, Bool.and_assoc]

theorem wfPairs_attrs {a : List (Bytes × Bytes)}
    (hp : ∀ p ∈ a, W64 p.1.length ∧ W64 p.2.length) :
    wfPairs (a.map fun p => (Val.text p.1, Val.text p.2)) = true := by
  induction a with
  | nil => rfl
  | cons p t ih =>
    obtain ⟨h1, h2⟩ := hp p (by simp)
    simp only [List.map_cons, wfPairs, Bool.and_eq_true]
    exact ⟨wfVal_text h1, wfVal_text h2,
      ih fun q hq => hp q (by simp [hq])⟩

theorem wfVal_attrsToVal {a : List (Bytes × Bytes)}
    (hlen : W64 a.length)
    (hp : ∀ p ∈ a, W64 p.1.length ∧ W64 p.2.length) :
    wfVal (attrsToVal a) = true := by
  have hperm := List.perm_insertionSort (fun p q : Bytes × Bytes => keyLE p.1 q.1) a
  simp only [attrsToVal, wfVal, Bool.and_eq_true]
  constructor
  · simp only [wfArg, decide_eq_true_eq, List.length_map, canonAttrs,
      hperm.length_eq]
    exact hlen
  · exact wfPairs_attrs fun p hpm => hp p (hperm.mem_iff.mp hpm)

set_option maxHeartbeats 1000000 in
theorem wfVal_segHdrToVal {h : SegmentHeader} (hWF : h.WF) :
    wfVal (segHdrToVal h) = true := by
  obtain ⟨h1, h2, h3, h4, h5, h6, h7, h8, h9, h10, h11, h12, h13, h14⟩ := hWF
  simp only [segHdrToVal, wfVal, Bool.and_eq_true]
  constructor
  · simp only [wfArg, decide_eq_true_eq, List.length_append, List.length_cons,
      List.length_nil]
    split_ifs <;> simp
  · split_ifs <;>
      simp +decide [wfPairs_append, wfPairs, wfVal_uint h1, wfVal_text h11,
        wfVal_intToVal h6, wfVal_uint h3, wfVal_intToVal h8,
        wfVal_timeToVal h.createdAt h5, wfVal_intToVal h7, wfVal_uint h2,
        wfVal_text h12, wfVal_uint h4, wfVal_attrsToVal h13 h14,
        wfVal_intToVal h9, wfVal_intToVal h10]

set_option maxHeartbeats 1000000 in
theorem wfVal_snapHdrToVal {h : SnapshotHeader} (hWF : h.WF) :
    wfVal (snapHdrToVal h) = true := by
  obtain ⟨h1, h2, h3, h4, h5, h6, h7, h8, h9⟩ := hWF
  simp only [snapHdrToVal, wfVal, Bool.and_eq_true]
  constructor
  · simp only [wfArg, decide_eq_true_eq, List.length_append, List.length_cons,
      List.length_nil]
    split_ifs <;> simp
  · split_ifs <;>
      simp +decide [wfPairs_append, wfPairs, wfVal_uint h1, wfVal_text h8,
        wfVal_intToVal h4, wfVal_intToVal h5, wfVal_timeToVal h.createdAt h3,
        wfVal_uint h2, wfVal_text h9, wfVal_intToVal h6, wfVal_intToVal h7]

theorem wfVal_frameToVal {fr : PageFrame} (hWF : fr.WF) :
    wfVal (frameToVal fr) = true := by
  obtain ⟨h1, h2, h3⟩ := hWF
  simp +decide [frameToVal, wfVal, wfPairs]
  simp only [wfArg, decide_eq_true_eq]
  exact ⟨h1, h3, h2⟩

theorem wfVal_container {d : Bytes} {hv : Val} (hd : W64 d.length)
    (hh : wfVal hv = true) :
    wfVal (Val.vmap [(Val.text (str "data"), Val.bytes d),
      (Val.text (str "header"), hv)]) = true := by
  simp +decide [wfVal, wfPairs, wfArg, hh]
  exact hd

theorem decompress_compress {z : CodecImpl} (hz : z.Lossless) {codec raw cdata : Bytes}
    (hc : compressBuffer z codec raw = some cdata) :
    decompressBuffer z codec cdata = some raw := by
  by_cases h1 : codec = str "none"
  · simp only [compressBuffer, if_pos h1, Option.some.injEq] at hc
    simp only [decompressBuffer, if_pos h1, hc]
  · by_cases h2 : codec = str "zstd"
    · simp only [compressBuffer, if_neg h1, if_pos h2, Option.some.injEq] at hc
      simp only [decompressBuffer, if_neg h1, if_pos h2]
      rw [← hc, hz]
    · simp [compressBuffer, if_neg h1, if_neg h2] at hc

set_option maxHeartbeats 1000000 in
/-- Decoding the marshalled container of a segment whose payload
decodes back to its own frames yields the segment with a normalized
header: the cbor codec is the identity except for the TimeUnix second
truncation of createdAt and the canonical reordering of the attribute
map. -/
theorem decodeSegmentFile_marshal (z : CodecImpl) (s : Segment)
    (hWF : s.header.WF) (hd : W64 s.data.length)
    (hval : populateSegmentPages z s.header.compression s.data = some s.pages) :
    decodeSegmentFile z (marshalSegment s) =
      some ⟨normSegHdr s.header, s.pages, s.data⟩ := by
  unfold decodeSegmentFile marshalSegment
  rw [parseDoc_enc _ (wfVal_container hd (wfVal_segHdrToVal hWF))]
  rw [Option.some_bind']
  simp +decide only [decodeSegContainer, vmLookup, strKey_data, strKey_header,
    if_true, if_false, ite_true, ite_false]
  simp only [decSegHdrF_enc, decBytesF_some, Option.some_bind']
  have hcomp : (normSegHdr s.header).compression = s.header.compression := rfl
  rw [hcomp, hval]
  rfl

set_option maxHeartbeats 1000000 in
/-- Decoding the marshalled container of a snapshot yields the snapshot
with a normalized header; the payload is not even decompressed by
decodeSnapshotFile. -/
theorem decodeSnapshotFile_marshal (s : Snapshot)
    (hWF : s.header.WF) (hd : W64 s.data.length) :
    decodeSnapshotFile (marshalSnapshot s) =
      some ⟨normSnapHdr s.header, s.data⟩ := by
  unfold decodeSnapshotFile marshalSnapshot
  rw [parseDoc_enc _ (wfVal_container hd (wfVal_snapHdrToVal hWF))]
  rw [Option.some_bind']
  simp +decide only [decodeSnapContainer, vmLookup, strKey_data, strKey_header,
    if_true, if_false, ite_true, ite_false]
  simp only [decSnapHdrF_enc, decBytesF_some, Option.some_bind']

/-! ## Shadow log enumeration

Models of loadSegmentsFromDir and Controller.localRestoreState of
restore.go.  A directory is a list of named files in enumeration order;
reading a file yields its bytes. -/

/-- One directory entry: file name and content. -/
structure DirEntry where
  name : String
  data : Bytes
deriving DecidableEq, Repr

/-- One generation directory of the shadow log. -/
structure GenDir where
  gen : String
  snapshots : List DirEntry
  segments : List DirEntry
deriving DecidableEq, Repr

/-- Suffix test on file names (strings.HasSuffix of Go). -/
def hasSuffix (s sfx : String) : Bool := sfx.data.isSuffixOf s.data

/-- Collection loop of loadSegmentsFromDir: skip entries without the
segment suffix, fail on any decode error, drop segments at or below
afterTxID. -/
def loadSegmentsCollect (z : CodecImpl) : List DirEntry → Nat → Option (List Segment)
  | [], _ => some []
  | e :: t, after =>
    if ¬ hasSuffix e.name ".segment.cbor" then loadSegmentsCollect z t after
    else
      match decodeSegmentFile z e.data with
      | none => none
      | some seg =>
        (loadSegmentsCollect z t after).map fun rest =>
          if seg.header.txId ≤ after then rest else seg :: rest

/-- loadSegmentsFromDir of restore.go: collect, then sort ascending by
txID. -/
def loadSegmentsFromDir (z : CodecImpl) (files : List DirEntry) (after : Nat) :
    Option (List Segment) :=
  (loadSegmentsCollect z files after).map fun segs =>
    segs.insertionSort fun a b => a.header.txId ≤ b.header.txId

/-- Best restore candidate so far: snapshot plus its tail of segments. -/
abbrev BestState := Option (Snapshot × List Segment)

/-- One snapshot entry step of Controller.localRestoreState: entries
without the suffix and entries that fail to decode are skipped; a
candidate newer than the current best loads the segment tail of its
generation, and a segment load error aborts the whole enumeration. -/
def lrsSnapStep (z : CodecImpl) (segFiles : List DirEntry) (best : BestState)
    (e : DirEntry) : Option BestState :=
  if ¬ hasSuffix e.name ".snapshot.cbor" then some best
  else
    match decodeSnapshotFile e.data with
    | none => some best
    | some snap =>
      match best with
      | some (bs, _) =>
        if ¬ bs.header.createdAt < snap.header.createdAt then some best
        else
          (loadSegmentsFromDir z segFiles snap.header.txId).map fun segs =>
            some (snap, segs)
      | none =>
        (loadSegmentsFromDir z segFiles snap.header.txId).map fun segs =>
          some (snap, segs)

/-- Fold of lrsSnapStep over the snapshot entries of one generation. -/
def lrsSnapList (z : CodecImpl) (segFiles : List DirEntry) :
    List DirEntry → BestState → Option BestState
  | [], best => some best
  | e :: t, best => (lrsSnapStep z segFiles best e).bind (lrsSnapList z segFiles t)

/-- Fold over the generation directories. -/
def lrsDirs (z : CodecImpl) : List GenDir → BestState → Option BestState
  | [], best => some best
  | d :: t, best => (lrsSnapList z d.segments d.snapshots best).bind (lrsDirs z t)

/-- Controller.localRestoreState of restore.go over the directory model. -/
def localRestoreState (z : CodecImpl) (dirs : List GenDir) : Option BestState :=
  lrsDirs z dirs none

/-! ## Retention prune algorithms -/

/-- Creation time and transaction id of one snapshot artifact, as
recovered by decoding (file replica) or by name parsing (object
replicas). -/
structure SnapMeta where
  created : Nat
  txid : Nat
deriving DecidableEq, Repr

/-- Descending creation time order used by every prune implementation
(sort.Slice with created_i.After(created_j)). -/
def sortSnapsDesc (snaps : List SnapMeta) : List SnapMeta :=
  snaps.insertionSort fun a b => b.created ≤ a.created

/-- Keep loop of pruneGeneration of the file replica: iterate newest
first; keep while within retention, and always keep the first
snapshot (the keep list is empty exactly at the head); delete the rest.
Returns (kept, deleted) in iteration order. -/
def pruneKeepLoop (cutoff : Nat) : List SnapMeta → List SnapMeta →
    List SnapMeta × List SnapMeta
  | keep, [] => (keep, [])
  | keep, s :: t =>
    if cutoff < s.created ∨ keep = [] then
      pruneKeepLoop cutoff (keep ++ [s]) t
    else
      let r := pruneKeepLoop cutoff keep t
      (r.1, s :: r.2)

/-- pruneGeneration of the file replica, over the decodable snapshots
(the source skips snapshot and segment files that fail to read or
decode) and the decodable segment txids.  Returns none when the
generation holds no snapshot (nothing is deleted); otherwise the
threshold keepTxID (the txid of the last kept snapshot, which is the
oldest kept), the deleted snapshots, and the deleted segment txids. -/
def pruneGeneration (snaps : List SnapMeta) (segs : List Nat) (cutoff : Nat) :
    Option (Nat × List SnapMeta × List Nat) :=
  if snaps = [] then none
  else
    let sorted := sortSnapsDesc snaps
    let r := pruneKeepLoop cutoff [] sorted
    let oldest := r.1.getLastD ⟨0, 0⟩
    some (oldest.txid, r.2, segs.filter fun tx => tx ≤ oldest.txid)

/-- Snapshot walk of S3CompatibleReplica.Prune: objects arrive in
bucket listing order; keys that fail name parsing are skipped (and so
survive); a snapshot is kept when inside retention or while no
keepable snapshot has been seen (keepTxID still zero), raising
keepTxID to its txid; every other snapshot object is removed. -/
def s3SnapLoop (cutoff : Nat) : List (String × Option SnapMeta) → Nat →
    Nat × List String
  | [], keepTxID => (keepTxID, [])
  | (_, none) :: t, keepTxID => s3SnapLoop cutoff t keepTxID
  | (key, some m) :: t, keepTxID =>
    if cutoff < m.created ∨ keepTxID = 0 then
      s3SnapLoop cutoff t (if keepTxID < m.txid then m.txid else keepTxID)
    else
      let r := s3SnapLoop cutoff t keepTxID
      (r.1, key :: r.2)

/-- S3CompatibleReplica.Prune (the positive retention path): prune the
snapshot objects, then, unless keepTxID stayed zero, remove every
parseable segment object with txid at or below keepTxID.  Returns
(keepTxID, deleted snapshot keys, deleted segment keys). -/
def s3Prune (cutoff : Nat) (snapObjs : List (String × Option SnapMeta))
    (segObjs : List (String × Option Nat)) : Nat × List String × List String :=
  let r := s3SnapLoop cutoff snapObjs 0
  if r.1 = 0 then (0, r.2, [])
  else
    (r.1, r.2, segObjs.filterMap fun o =>
      match o.2 with
      | none => none
      | some tx => if tx ≤ r.1 then some o.1 else none)

/-- Snapshot loop of pruneSFTPGeneration (also pruneNATSGeneration):
iterate the descending sorted snapshots with their index; keep when
inside retention or at index zero, raising keepTxID to the largest kept
txid; delete the rest. -/
def sftpSnapLoop (cutoff : Nat) : List SnapMeta → Bool → Nat →
    Nat × List SnapMeta
  | [], _, keepTx => (keepTx, [])
  | s :: t, isFirst, keepTx =>
    if cutoff < s.created ∨ isFirst then
      sftpSnapLoop cutoff t false (if keepTx < s.txid then s.txid else keepTx)
    else
      let r := sftpSnapLoop cutoff t false keepTx
      (r.1, s :: r.2)

/-- pruneSFTPGeneration of the SFTP replica (the JetStream replica
shares the same algorithm): sort descending, run the keep loop, fall
back to the newest txid when keepTxID stayed zero, then delete every
parseable segment with txid at or below the threshold. -/
def sftpPrune (snaps : List SnapMeta) (segs : List Nat) (cutoff : Nat) :
    Option (Nat × List SnapMeta × List Nat) :=
  if snaps = [] then none
  else
    let sorted := sortSnapsDesc snaps
    let r := sftpSnapLoop cutoff sorted true 0
    let keepTx := if r.1 = 0 then (sorted.headD ⟨0, 0⟩).txid else r.1
    some (keepTx, r.2, segs.filter fun tx => tx ≤ keepTx)

/-! ## Replica manifest -/

/-- SnapshotDescriptor of replica.go. -/
structure SnapshotDescriptor where
  name : String
  timestamp : Nat
  size : Int
deriving DecidableEq, Repr

/-- SegmentDescriptor of replica.go. -/
structure SegmentDescriptor where
  name : String
  firstTxID : Nat
  lastTxID : Nat
  timestamp : Nat
  size : Int
deriving DecidableEq, Repr

/-- RestoreState of replica.go, the per replica manifest. -/
structure RestoreState where
  generation : String
  snapshot : Option SnapshotDescriptor
  segments : List SegmentDescriptor
  lastUploaded : Nat
deriving DecidableEq, Repr

/-- The zero manifest, as readState returns when none exists yet. -/
def emptyRestoreState : RestoreState := ⟨"", none, [], 0⟩

/-- Shared manifest read-modify-write of the S3, SFTP and JetStream
replicas (updateState): reset when the generation differs, replace the
snapshot clearing the segments, or append the segment descriptor; stamp
lastUploaded. -/
def updateStateRMW (prior : RestoreState) (generation : String)
    (snapshot : Option SnapshotDescriptor) (segment : Option SegmentDescriptor)
    (now : Nat) : RestoreState :=
  let st := if prior.generation ≠ generation then
      (⟨generation, none, [], 0⟩ : RestoreState) else prior
  let st := match snapshot with
    | some sd => { st with snapshot := some sd, segments := [] }
    | none => st
  let st := match segment with
    | some sd => { st with segments := st.segments ++ [sd] }
    | none => st
  { st with lastUploaded := now }

/-- FileReplica.PutSnapshot manifest update: a fresh state with the
snapshot and no segments, written unconditionally. -/
def filePutSnapshotState (generation : String) (desc : SnapshotDescriptor)
    (now : Nat) : RestoreState :=
  ⟨generation, some desc, [], now⟩

/-- FileReplica.appendSegment: reset on generation change, then append
the descriptor and stamp lastUploaded. -/
def fileAppendSegment (prior : RestoreState) (generation : String)
    (desc : SegmentDescriptor) (now : Nat) : RestoreState :=
  let st := if prior.generation ≠ generation then
      (⟨generation, none, [], 0⟩ : RestoreState) else prior
  { st with segments := st.segments ++ [desc], lastUploaded := now }

/-- Hex digit value of an ASCII character. -/
def hexVal (c : Char) : Nat :=
  if 97 ≤ c.toNat then c.toNat - 87
  else if 65 ≤ c.toNat then c.toNat - 55
  else c.toNat - 48

/-- Value of a hexadecimal string. -/
def hexStrVal (s : String) : Nat :=
  s.data.foldl (fun a c => a * 16 + hexVal c) 0

/-- Modelled from the spec: the transaction id of the snapshot an
object descriptor points at is not a field of SnapshotDescriptor; per
the data model of the spec it is the sixteen digit hex suffix embedded
in the canonical object name before the snapshot extension. -/
def snapDescTx (sd : SnapshotDescriptor) : Nat :=
  hexStrVal ((sd.name.dropRight ".snapshot.cbor".length).takeRight 16)

/-- Contiguity of the manifest segment list: each descriptor starts
right after the previous one ends. -/
def ChainContig (segs : List SegmentDescriptor) : Prop :=
  List.Chain' (fun a b => b.firstTxID = a.lastTxID + 1) segs

instance (segs : List SegmentDescriptor) : Decidable (ChainContig segs) := by
  unfold ChainContig; infer_instance

/-- Emptiness of a manifest. -/
def RestoreStateEmpty (st : RestoreState) : Prop :=
  st.snapshot = none ∧ st.segments = []

/-- RestoreState invariant of the spec: either the state is empty, or
the snapshot is present, the segments are contiguous and all start
strictly after the snapshot transaction. -/
def RestoreStateInv (st : RestoreState) : Prop :=
  RestoreStateEmpty st ∨
  ∃ sd, st.snapshot = some sd ∧ ChainContig st.segments ∧
    ∀ seg ∈ st.segments, snapDescTx sd < seg.firstTxID

/-! ## Controller generation state and lag -/

/-- Generation relevant controller state. -/
structure CtrlGenState where
  currentGen : String
  lastTxID : Nat
deriving DecidableEq, Repr

/-- Generation decision of Controller.persistSegment: mint a fresh
generation when none exists or when the parent chain is broken (the
source resets lastTxID to zero inside the branch and then assigns the
new txID unconditionally, so the net effect on lastTxID is the txID);
returns the new state and the generation the segment is filed under. -/
def persistStep (st : CtrlGenState) (fresh : String) (txID parentTxID : Nat) :
    CtrlGenState × String :=
  if st.currentGen = "" ∨ (st.lastTxID ≠ 0 ∧ parentTxID ≠ st.lastTxID) then
    (⟨fresh, txID⟩, fresh)
  else
    (⟨st.currentGen, txID⟩, st.currentGen)

/-- Run a list of page flushes (txID, parentTxID, candidate fresh
generation id) through the generation decision, collecting the shadow
log writes as (generation, txID) pairs. -/
def runFlushes : CtrlGenState → List (Nat × Nat × String) →
    CtrlGenState × List (String × Nat)
  | st, [] => (st, [])
  | st, (tx, par, fresh) :: t =>
    let r := persistStep st fresh tx par
    let rest := runFlushes r.1 t
    (rest.1, (r.2, tx) :: rest.2)

/-- Controller.DataLossWindow: with no per replica entries, the time
since the last replication (zero when it never happened); otherwise the
largest lag over the recorded replica success times, zero stamps
skipped.  Times are integer stamps, the result a duration. -/
def dataLossWindow (now : Int) (lastReplication : Int)
    (lag : List (String × Int)) : Int :=
  if lag = [] then
    (if lastReplication = 0 then 0 else now - lastReplication)
  else
    lag.foldl (fun m p => if p.2 = 0 then m else max m (now - p.2)) 0

/-! ## Shadow log write traces -/

/-- File system operations the shadow write path can issue. -/
inductive FSOp where
  | mkdirAll : String → FSOp
  | writeFile : String → Bytes → FSOp
  | renameFile : String → String → FSOp
  | fsyncFile : String → FSOp
  | fsyncDir : String → FSOp
deriving DecidableEq, Repr

/-- Lower case hex digit. -/
def hexDigit (n : Nat) : Char :=
  Char.ofNat (if n < 10 then 48 + n else 87 + n)

/-- Sixteen digit zero padded hex rendering, fmt %016x. -/
def hex16 (n : Nat) : String :=
  String.mk ((List.range 16).map fun i => hexDigit (n / 16 ^ (15 - i) % 16))

/-- Shadow path of a segment artifact. -/
def segmentShadowPath (shadowDir generation : String) (txid : Nat) : String :=
  shadowDir ++ "/" ++ generation ++ "/segments/" ++ hex16 txid ++ ".segment.cbor"

/-- Controller.writeSegmentToShadow as the trace of file system
operations it performs: one MkdirAll and one WriteFile of the encoded
artifact at its final path.  The source calls os.WriteFile directly. -/
def writeSegmentToShadowOps (shadowDir generation : String) (s : Segment) :
    List FSOp :=
  [.mkdirAll (shadowDir ++ "/" ++ generation ++ "/segments"),
   .writeFile (segmentShadowPath shadowDir generation s.header.txId)
     (marshalSegment s)]

/-- Shadow path of a snapshot artifact; tsName stands for the
RFC3339Nano rendering of the creation time (external time formatting). -/
def snapshotShadowPath (shadowDir generation tsName : String) (txid : Nat) :
    String :=
  shadowDir ++ "/" ++ generation ++ "/snapshots/" ++ tsName ++ "-" ++
    hex16 txid ++ ".snapshot.cbor"

/-- Controller.writeSnapshotToShadow as its trace of file system
operations. -/
def writeSnapshotToShadowOps (shadowDir generation tsName : String)
    (s : Snapshot) : List FSOp :=
  [.mkdirAll (shadowDir ++ "/" ++ generation ++ "/snapshots"),
   .writeFile (snapshotShadowPath shadowDir generation tsName s.header.txId)
     (marshalSnapshot s)]

/-- Atomic durable write discipline the spec prescribes: some temporary
file is written and renamed onto the final path, some file is fsynced,
and the parent directory is fsynced. -/
def AtomicDurableWrite (ops : List FSOp) (finalPath dirPath : String) : Prop :=
  (∃ tmp data, tmp ≠ finalPath ∧ FSOp.writeFile tmp data ∈ ops ∧
    FSOp.renameFile tmp finalPath ∈ ops) ∧
  (∃ p, FSOp.fsyncFile p ∈ ops) ∧ FSOp.fsyncDir dirPath ∈ ops

/-! ## Concrete artifacts used by counterexamples and witnesses -/

/-- A page flush carrying one frame, whole second timestamp. -/
def cexInfo : PageFlushInfo :=
  ⟨1, 0, 4096, 7, 1700000000000000000, [⟨7, 0, [0x41, 0x42, 0x43]⟩]⟩

/-- Zero segment used as a getD default. -/
def dfltSeg : Segment := ⟨⟨[], 0, 0, 0, 0, 0, 0, [], 0, 0, 0, 0, []⟩, [], []⟩

/-- Concrete uncompressed segment built by the controller model. -/
def cexSeg : Segment :=
  (buildSegment idCodec (str "none") 0 0 0 cexInfo).getD dfltSeg

/-- Offset of the compressed payload inside the marshalled container:
the map head, the data key, and the byte string head precede it. -/
def payloadStart (s : Segment) : Nat :=
  1 + (encVal (Val.text (str "data"))).length + (encArg 2 s.data.length).length

/-- Bit position k lies inside the compressed payload of the marshalled
segment container. -/
def FlipInPayload (s : Segment) (k : Nat) : Prop :=
  payloadStart s * 8 ≤ k ∧ k < (payloadStart s + s.data.length) * 8

instance (s : Segment) (k : Nat) : Decidable (FlipInPayload s k) := by
  unfold FlipInPayload; infer_instance

/-! ## Claim C6: generation decision -/

/-- Claim C6: on every observed commit the controller mints a new
generation exactly when the current generation is empty or when
lastTxID is nonzero and the parent does not chain onto it; the state
always proceeds with lastTxID set to the txID of the commit; a first
commit of a fresh generation (lastTxID zero) never rotates; and the two
flush scenario of the spec (txID 1 parent 0, then txID 5 parent 3)
leaves two generations, each holding its one segment. -/
theorem claim_C6_generation_rule :
    (∀ (st : CtrlGenState) (fresh : String) (txID parentTxID : Nat),
      (persistStep st fresh txID parentTxID).1.lastTxID = txID) ∧
    (∀ (st : CtrlGenState) (fresh : String) (txID parentTxID : Nat),
      fresh ≠ st.currentGen →
      ((persistStep st fresh txID parentTxID).2 = fresh ↔
        (st.currentGen = "" ∨ (st.lastTxID ≠ 0 ∧ parentTxID ≠ st.lastTxID)))) ∧
    (∀ (g fresh : String) (txID parentTxID : Nat), g ≠ "" →
      (persistStep ⟨g, 0⟩ fresh txID parentTxID).2 = g) ∧
    runFlushes ⟨"", 0⟩ [(1, 0, "g1"), (5, 3, "g2")] =
      (⟨"g2", 5⟩, [("g1", 1), ("g2", 5)]) := by
  refine ⟨?_, ?_, ?_, by decide⟩
  · intro st fresh txID parentTxID
    unfold persistStep
    split <;> rfl
  · intro st fresh txID parentTxID hfresh
    unfold persistStep
    split_ifs with h
    · simp [h]
    · simp only [h, iff_false]
      exact fun hc => hfresh hc.symm
  · intro g fresh txID parentTxID hg
    unfold persistStep
    rw [if_neg (by simp [hg])]

/-- Witness for claim C6 at concrete inputs. -/
theorem claim_C6_generation_rule_witness :
    (persistStep ⟨"g0", 1⟩ "g9" 5 3).2 = "g9" ∧
    (persistStep ⟨"g0", 0⟩ "g9" 5 3).2 = "g0" := by
  constructor
  · exact (claim_C6_generation_rule.2.1 ⟨"g0", 1⟩ "g9" 5 3 (by decide)).mpr
      (Or.inr ⟨by decide, by decide⟩)
  · exact claim_C6_generation_rule.2.2.1 "g0" "g9" 5 3 (by decide)

/-! ## Claim C9: data loss window -/

theorem foldl_lag (now : Int) (lag : List (String × Int)) (acc : Int) :
    lag.foldl (fun m p => if p.2 = 0 then m else max m (now - p.2)) acc =
      ((lag.filter fun p => decide (p.2 ≠ 0)).map fun p => now - p.2).foldl max acc := by
  induction lag generalizing acc with
  | nil => rfl
  | cons p t ih =>
    by_cases h : p.2 = 0 <;> simp [h, ih]

/-- Claim C9: DataLossWindow returns zero when replication never
happened and the per replica map is empty; now minus lastReplication
when the map is empty; otherwise the maximum of now minus the recorded
replica stamps, zero stamps ignored.  In the two replica scenario where
A succeeded at tA and B failed (so B recorded no stamp), the result is
now minus tA. -/
theorem claim_C9_data_loss_window :
    (∀ now lastRepl : Int, dataLossWindow now lastRepl [] =
      if lastRepl = 0 then 0 else now - lastRepl) ∧
    (∀ (now lastRepl : Int) (lag : List (String × Int)), lag ≠ [] →
      dataLossWindow now lastRepl lag =
        ((lag.filter fun p => decide (p.2 ≠ 0)).map fun p => now - p.2).foldl max 0) ∧
    (∀ (now tA lastRepl : Int) (a : String), tA ≠ 0 → tA ≤ now →
      dataLossWindow now lastRepl [(a, tA)] = now - tA) := by
  refine ⟨fun now lastRepl => rfl, ?_, ?_⟩
  · intro now lastRepl lag hne
    unfold dataLossWindow
    rw [if_neg hne, foldl_lag]
  · intro now tA lastRepl a htA hle
    unfold dataLossWindow
    rw [if_neg (by simp)]
    simp only [List.foldl_cons, List.foldl_nil]
    rw [if_neg htA]
    have h0 : (0 : Int) ≤ now - tA := by omega
    exact max_eq_right h0

/-- Witness for claim C9 at concrete inputs. -/
theorem claim_C9_data_loss_window_witness :
    dataLossWindow 10 7 [("A", 4)] = 10 - 4 ∧
    dataLossWindow 10 7 [("A", 4), ("C", 0)] =
      (([("A", (4 : Int)), ("C", 0)].filter fun p => decide (p.2 ≠ 0)).map
        fun p => (10 : Int) - p.2).foldl max 0 :=
  ⟨claim_C9_data_loss_window.2.2 10 4 7 "A" (by decide) (by decide),
   claim_C9_data_loss_window.2.1 10 7 [("A", 4), ("C", 0)] (by decide)⟩

/-! ## Claim C10: snapshot upload clears the manifest segment list -/

/-- Claim C10: on every backend a successful PutSnapshot writes a
manifest carrying the generation and the snapshot descriptor with an
empty segment list, whether or not the generation changed: the shared
read-modify-write of the object replicas and the file replica update
both produce exactly that manifest. -/
theorem updateStateRMW_snapshot_eq (prior : RestoreState) (generation : String)
    (desc : SnapshotDescriptor) (now : Nat) :
    updateStateRMW prior generation (some desc) none now =
      ⟨generation, some desc, [], now⟩ := by
  unfold updateStateRMW
  by_cases h : prior.generation ≠ generation
  · rw [if_pos h]
  · rw [if_neg h]
    push_neg at h
    simp [h]

theorem claim_C10_snapshot_clears_segments :
    (∀ (prior : RestoreState) (generation : String)
      (desc : SnapshotDescriptor) (now : Nat),
      updateStateRMW prior generation (some desc) none now =
        ⟨generation, some desc, [], now⟩) ∧
    (∀ (generation : String) (desc : SnapshotDescriptor) (now : Nat),
      filePutSnapshotState generation desc now =
        ⟨generation, some desc, [], now⟩) :=
  ⟨updateStateRMW_snapshot_eq, fun _ _ _ => rfl⟩

/-! ## Claim C4: manifest invariant under uploads -/

/-- Claim C4 counterexample: a single successful PutSegment against a
fresh file replica (empty prior manifest) writes a manifest whose
snapshot is null while its segment list is non empty, so the
RestoreState invariant of the spec fails after that call. -/
theorem claim_C4_counterexample :
    ¬ RestoreStateInv (fileAppendSegment emptyRestoreState "g"
      ⟨"g/segments/0000000000000005.segment.cbor", 5, 5, 0, 1⟩ 7) := by
  intro h
  rcases h with ⟨_, h2⟩ | ⟨sd, hsd, _⟩
  · simp [fileAppendSegment, emptyRestoreState] at h2
  · simp [fileAppendSegment, emptyRestoreState] at hsd

/-- Claim C4 amended: a successful PutSnapshot always restores the
invariant (snapshot present, no segments); but PutSegment merely
appends its descriptor after resetting on a generation change, without
any invariant enforcement: whenever the generation changes or the prior
manifest has no snapshot, the manifest written by PutSegment violates
the invariant, on the file replica and on the shared object replica
read-modify-write alike. -/
theorem claim_C4_amended :
    (∀ (prior : RestoreState) (generation : String)
      (desc : SnapshotDescriptor) (now : Nat),
      RestoreStateInv (updateStateRMW prior generation (some desc) none now)) ∧
    (∀ (generation : String) (desc : SnapshotDescriptor) (now : Nat),
      RestoreStateInv (filePutSnapshotState generation desc now)) ∧
    (∀ (prior : RestoreState) (generation : String)
      (desc : SegmentDescriptor) (now : Nat),
      prior.generation ≠ generation ∨ prior.snapshot = none →
      ¬ RestoreStateInv (fileAppendSegment prior generation desc now)) ∧
    (∀ (prior : RestoreState) (generation : String)
      (desc : SegmentDescriptor) (now : Nat),
      prior.generation ≠ generation ∨ prior.snapshot = none →
      ¬ RestoreStateInv (updateStateRMW prior generation none (some desc) now)) := by
  have hsnapinv : ∀ (g : String) (d : SnapshotDescriptor) (n : Nat),
      RestoreStateInv ⟨g, some d, [], n⟩ := by
    intro g d n
    exact Or.inr ⟨d, rfl, List.chain'_nil, by simp⟩
  refine ⟨?_, ?_, ?_, ?_⟩
  · intro prior generation desc now
    rw [updateStateRMW_snapshot_eq prior generation desc now]
    exact hsnapinv _ _ _
  · intro generation desc now
    exact hsnapinv _ _ _
  · intro prior generation desc now hpre h
    have hsnap : (fileAppendSegment prior generation desc now).snapshot = none := by
      unfold fileAppendSegment
      rcases hpre with hg | hs
      · rw [if_pos hg]
      · by_cases hg : prior.generation ≠ generation
        · rw [if_pos hg]
        · rw [if_neg hg]; exact hs
    have hsegs : (fileAppendSegment prior generation desc now).segments ≠ [] := by
      unfold fileAppendSegment
      split <;> simp
    rcases h with ⟨_, h2⟩ | ⟨sd, hsd, _⟩
    · exact hsegs h2
    · rw [hsnap] at hsd; exact Option.noConfusion hsd
  · intro prior generation desc now hpre h
    have hsnap : (updateStateRMW prior generation none (some desc) now).snapshot = none := by
      unfold updateStateRMW
      rcases hpre with hg | hs
      · rw [if_pos hg]
      · by_cases hg : prior.generation ≠ generation
        · rw [if_pos hg]
        · rw [if_neg hg]; exact hs
    have hsegs : (updateStateRMW prior generation none (some desc) now).segments ≠ [] := by
      unfold updateStateRMW
      split <;> simp
    rcases h with ⟨_, h2⟩ | ⟨sd, hsd, _⟩
    · exact hsegs h2
    · rw [hsnap] at hsd; exact Option.noConfusion hsd

/-- Witness for the amended claim C4 at concrete inputs. -/
theorem claim_C4_amended_witness :
    ¬ RestoreStateInv (fileAppendSegment ⟨"g", none, [], 0⟩ "g"
      ⟨"n", 2, 2, 0, 1⟩ 3) ∧
    ¬ RestoreStateInv (updateStateRMW ⟨"h", none, [], 0⟩ "g" none
      (some ⟨"n", 2, 2, 0, 1⟩) 3) :=
  ⟨claim_C4_amended.2.2.1 ⟨"g", none, [], 0⟩ "g" ⟨"n", 2, 2, 0, 1⟩ 3 (Or.inr rfl),
   claim_C4_amended.2.2.2 ⟨"h", none, [], 0⟩ "g" ⟨"n", 2, 2, 0, 1⟩ 3
     (Or.inl (by decide))⟩

/-! ## Claim C7: shadow write discipline -/

/-- Durability related operations the spec requires of the shadow
write. -/
def isDurabilityOp : FSOp → Bool
  | .renameFile _ _ => true
  | .fsyncFile _ => true
  | .fsyncDir _ => true
  | _ => false

/-- Claim C7 counterexample: the trace of writeSegmentToShadow on a
concrete segment contains no rename and no fsync at all, so the write
is neither atomic via a temporary file nor durably synced, contradicting
the claimed write-temp, rename, fsync file, fsync directory sequence. -/
theorem claim_C7_counterexample :
    ¬ AtomicDurableWrite (writeSegmentToShadowOps "/shadow" "gen" cexSeg)
      (segmentShadowPath "/shadow" "gen" cexSeg.header.txId)
      ("/shadow" ++ "/" ++ "gen" ++ "/segments") := by
  rintro ⟨⟨tmp, data, _, _, hr⟩, _, _⟩
  simp [writeSegmentToShadowOps] at hr

/-- Claim C7 amended: PutSegment and PutSnapshot on the shadow log
issue exactly a MkdirAll and a single WriteFile of the encoded artifact
directly at its final path; no temporary file, no rename and no fsync
of either the file or the parent directory occur. -/
theorem claim_C7_amended :
    ∀ (shadowDir generation tsName : String) (s : Segment) (snap : Snapshot),
      ((writeSegmentToShadowOps shadowDir generation s).all
        fun op => !isDurabilityOp op) = true ∧
      FSOp.writeFile (segmentShadowPath shadowDir generation s.header.txId)
          (marshalSegment s) ∈ writeSegmentToShadowOps shadowDir generation s ∧
      ((writeSnapshotToShadowOps shadowDir generation tsName snap).all
        fun op => !isDurabilityOp op) = true ∧
      FSOp.writeFile (snapshotShadowPath shadowDir generation tsName
          snap.header.txId) (marshalSnapshot snap) ∈
        writeSnapshotToShadowOps shadowDir generation tsName snap := by
  intro shadowDir generation tsName s snap
  refine ⟨?_, ?_, ?_, ?_⟩ <;>
    simp [writeSegmentToShadowOps, writeSnapshotToShadowOps, isDurabilityOp]

end Witchbolt
